import Mathlib

/-!
Verification of the single-record inference pipeline of the
Credit-Risk-Scoring-System repository.

The embedding models the serving-time behaviour of
`src/data_cleaning.py`, `src/feature_engineering.py` and
`src/inference.py` on a single-record pandas DataFrame
(`pd.DataFrame([data])` as built by `CreditScoringModel._preprocess_input`).
A DataFrame is represented column-major: an ordered list of named
columns, each carrying its cell values and an object-dtype flag.
Machine floats are modelled as rationals together with explicit
NaN / infinity markers; Python exceptions are modelled with `Except`.
The externally trained XGBoost classifier and the SHAP explainer are
capabilities consumed by `predict`, so they are parameters
(`modelProb`, `shapRow`) of the embedded `predict`.
-/

/-- Equality of `Except` values is decidable when it is on both sides. -/
instance {ε α : Type _} [DecidableEq ε] [DecidableEq α] : DecidableEq (Except ε α) := fun x y =>
  match x, y with
  | .ok a, .ok b =>
      if h : a = b then .isTrue (by rw [h]) else .isFalse (fun he => h (Except.ok.inj he))
  | .ok _, .error _ => .isFalse (fun he => Except.noConfusion he)
  | .error _, .ok _ => .isFalse (fun he => Except.noConfusion he)
  | .error e, .error e' =>
      if h : e = e' then .isTrue (by rw [h]) else .isFalse (fun he => h (Except.error.inj he))

/-- Decidable equality of rationals through numerator/denominator
boolean comparisons; it decides the same propositions as the default
instance but evaluates through the arithmetic primitives, which keeps
concrete pipeline runs within the elaborator's recursion budget. -/
instance (priority := 1001) : DecidableEq ℚ := fun a b =>
  decidable_of_iff ((a.num == b.num && a.den == b.den) = true) (by
    rw [Bool.and_eq_true, beq_iff_eq, beq_iff_eq]
    constructor
    · intro h
      exact Rat.ext h.1 h.2
    · intro h
      rw [h]
      exact ⟨rfl, rfl⟩)

namespace CreditRisk

/-- A scalar cell value of a DataFrame: a finite float (as a rational),
the missing-value marker `np.nan`, positive or negative infinity, or a
Python string. -/
inductive Val where
  | num : ℚ → Val
  | nan : Val
  | inf : Val
  | ninf : Val
  | str : String → Val
deriving DecidableEq

/-- One column of a DataFrame: its label, whether its dtype is `object`
(string-valued, the dtypes selected by `select_dtypes(include=['object'])`),
and its cell values (one per row). -/
structure Col where
  name : String
  isObj : Bool
  vals : List Val
deriving DecidableEq

/-- A pandas DataFrame, column-major: ordered list of labelled columns. -/
abbrev Frame := List Col

/-- The Python exceptions the pipeline can raise: `KeyError` from a
missing column read, `ValueError` from reindexing on a duplicate axis,
`IndexError` from indexing row 0 of an empty prediction array. -/
inductive PyErr where
  | keyError : String → PyErr
  | valueError : PyErr
  | indexError : PyErr
deriving DecidableEq

/-- The raw applicant mapping handed to `CreditScoringModel.predict`
(a Python dict, so keys are unique and ordered). -/
abbrev Record := List (String × Val)

/-- Dtype assigned by pandas to a dict value: `object` for strings. -/
def isStrVal : Val → Bool
  | .str _ => true
  | _ => false

/-- `pd.DataFrame([data])`: a one-row frame, one column per dict key in
insertion order. -/
def frameOfRecord (r : Record) : Frame :=
  r.map (fun kv => ⟨kv.1, isStrVal kv.2, [kv.2]⟩)

/-- Column read `df[c]`: the values of the first column labelled `c`,
or `KeyError` when no column has that label. -/
def getColVals (f : Frame) (c : String) : Except PyErr (List Val) :=
  match f.find? (fun col => col.name == c) with
  | some col => .ok col.vals
  | none => .error (.keyError c)

/-- Whether the frame has a column labelled `c`. -/
def hasCol (f : Frame) (c : String) : Bool :=
  f.any (fun col => col.name == c)

/-- Column assignment `df[c] = vs`: replaces the values (and dtype) of
the columns labelled `c` in place, or appends a new last column when the
label is absent. -/
def setCol (f : Frame) (c : String) (o : Bool) (vs : List Val) : Frame :=
  if hasCol f c then
    f.map (fun col => if col.name == c then ⟨col.name, o, vs⟩ else col)
  else
    f ++ [⟨c, o, vs⟩]

/-- The sentinel test of `data_cleaning.clean_employment_anomaly`:
`df['DAYS_EMPLOYED'] == 365243` (elementwise; NaN and strings compare
unequal to the number, as in pandas), mapped to the `astype(int)` flag. -/
def anomFlag (v : Val) : Val :=
  if v = Val.num 365243 then Val.num 1 else Val.num 0

/-- `Series.replace(365243, np.nan)` on one cell. -/
def sentinelToNan (v : Val) : Val :=
  if v = Val.num 365243 then Val.nan else v

/-- `data_cleaning.clean_employment_anomaly`: adds the
`DAYS_EMPLOYED_ANOM` 0/1 flag column computed from the current
`DAYS_EMPLOYED` values, then replaces the sentinel 365243 by NaN in
`DAYS_EMPLOYED`. Reading a missing `DAYS_EMPLOYED` raises `KeyError`. -/
def clean_employment_anomaly (f : Frame) : Except PyErr Frame := do
  let de ← getColVals f "DAYS_EMPLOYED"
  let f1 := setCol f "DAYS_EMPLOYED_ANOM" false (de.map anomFlag)
  let de2 ← getColVals f1 "DAYS_EMPLOYED"
  return setCol f1 "DAYS_EMPLOYED" false (de2.map sentinelToNan)

/-- Row filter: keep the rows whose mask entry is true
(`df[mask]`; the mask is as long as the frame has rows). -/
def applyMask (vs : List Val) (mask : List Bool) : List Val :=
  ((vs.zip mask).filter (fun p => p.2)).map (fun p => p.1)

/-- Apply a row mask to every column of the frame. -/
def filterRows (f : Frame) (mask : List Bool) : Frame :=
  f.map (fun col => ⟨col.name, col.isObj, applyMask col.vals mask⟩)

/-- `data_cleaning.clean_gender_code`:
`df[df['CODE_GENDER'] != 'XNA']` — silently filters out the rows whose
gender is the invalid sentinel; raises only if the column is absent. -/
def clean_gender_code (f : Frame) : Except PyErr Frame := do
  let g ← getColVals f "CODE_GENDER"
  return filterRows f (g.map (fun v => !(v == Val.str "XNA")))

/-- Number of rows of the frame (`len(df)`), read off the first column. -/
def nRows (f : Frame) : Nat :=
  match f with
  | [] => 0
  | col :: _ => col.vals.length

/-- `Series.isnull().sum()` for one column: NaN cells count as missing;
infinities and strings do not. -/
def countMissing (vs : List Val) : Nat :=
  vs.countP (fun v => v == Val.nan)

/-- `data_cleaning.drop_high_missing_cols`: drops every column whose
missing-value percentage `100 * isnull().sum() / len(df)` strictly
exceeds the threshold. On a 0-row frame the rate is `0/0 = NaN` in
pandas and `NaN > threshold` is false, so nothing is dropped. -/
def drop_high_missing_cols (f : Frame) (threshold : ℚ) : Frame :=
  if nRows f = 0 then f
  else f.filter
    (fun col => !(decide (100 * (countMissing col.vals : ℚ) / (nRows f : ℚ) > threshold)))

/-- `data_cleaning.run_cleaning_pipeline`: anomaly correction, then
gender-category filtering, then sparse-column dropping at threshold 50. -/
def run_cleaning_pipeline (f : Frame) : Except PyErr Frame := do
  let f1 ← clean_employment_anomaly f
  let f2 ← clean_gender_code f1
  return drop_high_missing_cols f2 50

/-- Elementwise float division as numpy performs it: finite quotients,
signed infinities for division by zero, NaN for `0/0` and for NaN
operands. (String operands would raise a TypeError in pandas; the
pipeline only ever divides numeric columns, so that branch is folded
into NaN.) -/
def divVal : Val → Val → Val
  | .num a, .num b =>
      if b = 0 then (if a = 0 then .nan else if a > 0 then .inf else .ninf)
      else .num (a / b)
  | .num _, .inf => .num 0
  | .num _, .ninf => .num 0
  | .inf, .num b => if b < 0 then .ninf else .inf
  | .ninf, .num b => if b < 0 then .inf else .ninf
  | _, _ => .nan

/-- Elementwise `Series.abs()` on one cell (numeric columns only). -/
def absVal : Val → Val
  | .num a => .num |a|
  | .nan => .nan
  | .inf => .inf
  | .ninf => .inf
  | .str s => .str s

/-- `feature_engineering.create_domain_features`: the six derived ratio
columns, in source order; each missing operand column raises `KeyError`
at its first read. -/
def create_domain_features (f : Frame) : Except PyErr Frame := do
  let credit ← getColVals f "AMT_CREDIT"
  let income ← getColVals f "AMT_INCOME_TOTAL"
  let f1 := setCol f "CREDIT_INCOME_PERCENT" false (List.zipWith divVal credit income)
  let annuity ← getColVals f1 "AMT_ANNUITY"
  let f2 := setCol f1 "ANNUITY_INCOME_PERCENT" false (List.zipWith divVal annuity income)
  let f3 := setCol f2 "CREDIT_TERM" false (List.zipWith divVal credit annuity)
  let goods ← getColVals f3 "AMT_GOODS_PRICE"
  let f4 := setCol f3 "GOODS_LOAN_RATIO" false (List.zipWith divVal goods credit)
  let idpub ← getColVals f4 "DAYS_ID_PUBLISH"
  let f5 := setCol f4 "ID_AGE_YEARS" false (idpub.map (fun v => divVal (absVal v) (Val.num 365)))
  let birth ← getColVals f5 "DAYS_BIRTH"
  let clientAge := birth.map (fun v => divVal (absVal v) (Val.num 365))
  let idage ← getColVals f5 "ID_AGE_YEARS"
  return setCol f5 "ID_TO_AGE_RATIO" false (List.zipWith divVal idage clientAge)

/-- String values observed in an object column. -/
def strValsOf (vs : List Val) : List String :=
  vs.filterMap (fun v => match v with | .str s => some s | _ => none)

/-- The category levels `pd.get_dummies` derives for one column:
distinct observed values in sorted order (NaN excluded). -/
def collectCats (vs : List Val) : List String :=
  (strValsOf vs).dedup.mergeSort (fun a b => a ≤ b)

/-- The indicator columns `get_dummies(..., drop_first=True)` produces
for one object column: one 0/1 column per category except the first. -/
def dummyCols (col : Col) : List Col :=
  ((collectCats col.vals).drop 1).map (fun cat =>
    ⟨col.name ++ "_" ++ cat, false,
      col.vals.map (fun v => if v = Val.str cat then Val.num 1 else Val.num 0)⟩)

/-- `feature_engineering.encode_categoricals`:
`pd.get_dummies(df, columns=object_columns, drop_first=True)` — the
non-object columns keep their order, the object columns are replaced by
their indicator columns, appended after them in column order. -/
def encode_categoricals (f : Frame) : Frame :=
  (f.filter (fun col => !col.isObj)) ++ (f.filter (fun col => col.isObj)).flatMap dummyCols

/-- `re.sub('[^A-Za-z0-9_]+', '', x)`: strip every character that is not
a letter, digit or underscore from a column label. -/
def normalizeName (s : String) : String :=
  ⟨s.data.filter (fun ch => ch.isAlphanum || ch = '_')⟩

/-- `feature_engineering.run_feature_engineering`: domain features, then
categorical encoding, then column-name normalization. Two distinct
labels that normalize to the same string are both kept: the rename
silently yields duplicate labels. -/
def run_feature_engineering (f : Frame) : Except PyErr Frame := do
  let f1 ← create_domain_features f
  let f2 := encode_categoricals f1
  return f2.map (fun col => ⟨normalizeName col.name, col.isObj, col.vals⟩)

/-- The alignment fill column: a missing trained feature is created with
fill value 0 for every row. -/
def fillCol (c : String) (n : Nat) : Col :=
  ⟨c, false, List.replicate n (Val.num 0)⟩

/-- One column of `df.reindex(columns=features, fill_value=0)`: the
existing column when the label is present, else the fill column. -/
def reindexCol (f : Frame) (c : String) : Col :=
  match f.find? (fun col => col.name == c) with
  | some col => col
  | none => fillCol c (nRows f)

/-- `df.reindex(columns=features, fill_value=0)`: emits the trained
feature labels in registry order, keeping present columns and filling
absent ones with 0; raises `ValueError` when the frame's column axis
holds duplicate labels (pandas refuses to reindex a duplicate axis). -/
def reindex (f : Frame) (features : List String) : Except PyErr Frame :=
  if (f.map (fun col => col.name)).Nodup then .ok (features.map (reindexCol f))
  else .error .valueError

/-- `CreditScoringModel._preprocess_input`: build the one-row frame from
the request dict, clean, derive features, and align to the trained
feature list. -/
def preprocess_input (features : List String) (data : Record) : Except PyErr Frame := do
  let df1 ← run_cleaning_pipeline (frameOfRecord data)
  let df2 ← run_feature_engineering df1
  reindex df2 features

/-- One explanation entry returned by `_get_top_factors`. -/
structure FactorEntry where
  feature : String
  impact : ℚ
  direction : String
deriving DecidableEq

/-- Python `round` on a rational: round half to even (banker's
rounding), as `round` does on floats at representable ties.
(`Rat.floor` is used rather than `Int.floor` so the function evaluates
inside the kernel; they agree on `ℚ`.) -/
def pyRound (q : ℚ) : ℤ :=
  let fl := q.floor
  if q - fl < 1 / 2 then fl
  else if q - fl > 1 / 2 then fl + 1
  else if fl % 2 = 0 then fl else fl + 1

/-- `round(x, 4)`: rounding to 4 decimal places. -/
def pyRound4 (q : ℚ) : ℚ :=
  (pyRound (q * 10000) : ℚ) / 10000

/-- The comparison of `feature_importance.sort(key=lambda x: abs(x[1]),
reverse=True)`: `a` may come before `b` when its absolute impact is at
least as large. -/
def absLe (a b : String × ℚ) : Bool :=
  decide (|b.2| ≤ |a.2|)

/-- `CreditScoringModel._get_top_factors` on the SHAP value vector of
the instance: pair each trained feature name with its contribution,
stably sort by descending absolute impact (`list.sort` with
`key=lambda x: abs(x[1])`, `reverse=True` — Python's sort is stable, so
ties keep input order; `List.mergeSort` is the stable sort with the
same comparison), keep the top 5, and format each entry with its
sign-derived direction label and the impact rounded to 4 places. -/
def get_top_factors (features : List String) (shapVals : List ℚ) : List FactorEntry :=
  let fi := features.zip shapVals
  let sorted := fi.mergeSort absLe
  (sorted.take 5).map (fun p =>
    ⟨p.1, pyRound4 p.2, if p.2 > 0 then "INCREASES Risk" else "REDUCES Risk"⟩)

/-- Python `int()` on a float: truncation toward zero. -/
def pyInt (q : ℚ) : ℤ :=
  if 0 ≤ q then q.floor else -(-q).floor

/-- `credit_score = int((1 - pd_score) * 1000)` (inference.py line 107). -/
def credit_score_of (p : ℚ) : ℤ :=
  pyInt ((1 - p) * 1000)

/-- The tier/decision ladder of `predict` (inference.py lines 110-115). -/
def tier_decision (p : ℚ) : String × String :=
  if p < 1 / 5 then ("Low Risk", "APPROVE")
  else if p < 1 / 2 then ("Medium Risk", "MANUAL REVIEW")
  else ("High Risk", "REJECT")

/-- The successful response dict of `CreditScoringModel.predict`. -/
structure ScoreResult where
  probability_default : ℚ
  credit_score : ℤ
  risk_tier : String
  decision : String
  top_factors : List FactorEntry
deriving DecidableEq

/-- Row 0 of the processed frame (the instance the classifier scores);
`none` models the `IndexError` of `predict_proba(df)[0]` on an empty
frame. -/
def firstRow (f : Frame) : Option (List Val) :=
  if nRows f > 0 then some (f.map (fun col => col.vals.headD Val.nan)) else none

/-- `CreditScoringModel.predict`: preprocess, score the single row with
the external classifier capability `modelProb` (the positive-class
probability of `predict_proba`), convert to score/tier/decision, and
attach the SHAP explanation computed by the external capability
`shapRow`. Any raised exception is caught by the surrounding
`try/except` and surfaces as an error payload instead of a result. -/
def predict (modelProb : List Val → ℚ) (shapRow : List Val → List ℚ)
    (features : List String) (data : Record) : Except PyErr ScoreResult := do
  let df ← preprocess_input features data
  let row ← match firstRow df with
    | some r => Except.ok r
    | none => Except.error PyErr.indexError
  let p := modelProb row
  let expl := get_top_factors features (shapRow row)
  return ⟨pyRound4 p, credit_score_of p, (tier_decision p).1, (tier_decision p).2, expl⟩

/-- Stand-in for the externally trained classifier capability. -/
def zeroModel : List Val → ℚ := fun _ => 0

/-- Stand-in for the external SHAP attribution capability. -/
def zeroShap : List Val → List ℚ := fun _ => []

/-- The sample request of inference.py's self-test block (`__main__`):
all required keys, none of the optional ones (`DAYS_ID_PUBLISH` absent). -/
def sampleRequest : Record :=
  [("SK_ID_CURR", .num 100002), ("NAME_CONTRACT_TYPE", .str "Cash loans"),
   ("CODE_GENDER", .str "M"), ("AMT_INCOME_TOTAL", .num 200000),
   ("AMT_CREDIT", .num 1000000), ("AMT_ANNUITY", .num 50000),
   ("AMT_GOODS_PRICE", .num 900000), ("DAYS_EMPLOYED", .num (-500)),
   ("DAYS_BIRTH", .num (-10000)),
   ("EXT_SOURCE_2", .num (1 / 2)), ("EXT_SOURCE_3", .num (1 / 2))]

/-- The sample request extended with the optional `DAYS_ID_PUBLISH` key,
so that feature derivation can complete. -/
def fullRequest : Record :=
  [("SK_ID_CURR", .num 100002), ("NAME_CONTRACT_TYPE", .str "Cash loans"),
   ("CODE_GENDER", .str "M"), ("AMT_INCOME_TOTAL", .num 200000),
   ("AMT_CREDIT", .num 1000000), ("AMT_ANNUITY", .num 50000),
   ("AMT_GOODS_PRICE", .num 900000), ("DAYS_EMPLOYED", .num (-500)),
   ("DAYS_BIRTH", .num (-10000)), ("DAYS_ID_PUBLISH", .num (-3000)),
   ("EXT_SOURCE_2", .num (1 / 2)), ("EXT_SOURCE_3", .num (1 / 2))]

/-- `fullRequest` with the invalid gender sentinel. -/
def xnaRequest : Record :=
  [("SK_ID_CURR", .num 100002), ("NAME_CONTRACT_TYPE", .str "Cash loans"),
   ("CODE_GENDER", .str "XNA"), ("AMT_INCOME_TOTAL", .num 200000),
   ("AMT_CREDIT", .num 1000000), ("AMT_ANNUITY", .num 50000),
   ("AMT_GOODS_PRICE", .num 900000), ("DAYS_EMPLOYED", .num (-500)),
   ("DAYS_BIRTH", .num (-10000)), ("DAYS_ID_PUBLISH", .num (-3000)),
   ("EXT_SOURCE_2", .num (1 / 2)), ("EXT_SOURCE_3", .num (1 / 2))]

/-- `fullRequest` with the employment sentinel 365243. -/
def sentinelRequest : Record :=
  [("SK_ID_CURR", .num 100002), ("NAME_CONTRACT_TYPE", .str "Cash loans"),
   ("CODE_GENDER", .str "M"), ("AMT_INCOME_TOTAL", .num 200000),
   ("AMT_CREDIT", .num 1000000), ("AMT_ANNUITY", .num 50000),
   ("AMT_GOODS_PRICE", .num 900000), ("DAYS_EMPLOYED", .num 365243),
   ("DAYS_BIRTH", .num (-10000)), ("DAYS_ID_PUBLISH", .num (-3000)),
   ("EXT_SOURCE_2", .num (1 / 2)), ("EXT_SOURCE_3", .num (1 / 2))]

/-- `fullRequest` with two extra numeric attributes whose labels are
distinct but collide after name normalization ("A B" and "AB"). -/
def collideRequest : Record :=
  [("SK_ID_CURR", .num 100002), ("NAME_CONTRACT_TYPE", .str "Cash loans"),
   ("CODE_GENDER", .str "M"), ("AMT_INCOME_TOTAL", .num 200000),
   ("AMT_CREDIT", .num 1000000), ("AMT_ANNUITY", .num 50000),
   ("AMT_GOODS_PRICE", .num 900000), ("DAYS_EMPLOYED", .num (-500)),
   ("DAYS_BIRTH", .num (-10000)), ("DAYS_ID_PUBLISH", .num (-3000)),
   ("EXT_SOURCE_2", .num (1 / 2)), ("EXT_SOURCE_3", .num (1 / 2)),
   ("A B", .num 1), ("AB", .num 2)]

/-- A small trained-feature registry used by the concrete witnesses:
two names the derived frame has, one it lacks. -/
def demoFeatures : List String :=
  ["EXT_SOURCE_2", "CREDIT_TERM", "NAME_EDUCATION_TYPEHighereducation"]

/-- The processed frame the pipeline produces for `fullRequest` aligned
to `demoFeatures` (extracted for the concrete witnesses). -/
def demoProcessed : Frame :=
  match preprocess_input demoFeatures fullRequest with
  | .ok g => g
  | .error _ => []

/-- The derived frame (cleaning plus feature engineering, before
alignment) of `collideRequest`, extracted for the concrete witnesses. -/
def collideDerived : Frame :=
  match run_cleaning_pipeline (frameOfRecord collideRequest) >>= run_feature_engineering with
  | .ok d => d
  | .error _ => []

set_option maxRecDepth 4000

/-- Bind of an `ok` value in the `Except` monad. -/
theorem ok_bind {α β : Type} (a : α) (g : α → Except PyErr β) :
    (Except.ok a >>= g) = g a := rfl

/-- Bind of an `error` value in the `Except` monad. -/
theorem error_bind {α β : Type} (e : PyErr) (g : α → Except PyErr β) :
    ((Except.error e : Except PyErr α) >>= g) = Except.error e := rfl

/-- Batteries' `Rat.floor` agrees with the `Int.floor` of Mathlib's
floor-ring structure on `ℚ`. -/
theorem ratFloor_eq_floor (q : ℚ) : q.floor = ⌊q⌋ := by
  rw [Rat.floor_def' q, Rat.floor_def]

/-- C2: the decision ladder realizes exactly the documented bands, with
each boundary probability falling in the higher tier. -/
theorem c2_decision_thresholds (p : ℚ) (h0 : 0 ≤ p) (h1 : p ≤ 1) :
    (tier_decision p = ("Low Risk", "APPROVE") ↔ p < 1 / 5) ∧
    (tier_decision p = ("Medium Risk", "MANUAL REVIEW") ↔ 1 / 5 ≤ p ∧ p < 1 / 2) ∧
    (tier_decision p = ("High Risk", "REJECT") ↔ 1 / 2 ≤ p) := by
  unfold tier_decision
  split_ifs with ha hb
  · refine ⟨⟨fun _ => ha, fun _ => rfl⟩, ⟨fun h => ?_, fun h => ?_⟩, ⟨fun h => ?_, fun h => ?_⟩⟩
    · simp at h
    · exact absurd ha (not_lt.mpr h.1)
    · simp at h
    · exact absurd (lt_of_lt_of_le ha (by norm_num)) (not_lt.mpr h)
  · refine ⟨⟨fun h => ?_, fun h => ?_⟩, ⟨fun _ => ⟨not_lt.mp ha, hb⟩, fun _ => rfl⟩,
      ⟨fun h => ?_, fun h => ?_⟩⟩
    · simp at h
    · exact absurd h ha
    · simp at h
    · exact absurd hb (not_lt.mpr h)
  · refine ⟨⟨fun h => ?_, fun h => ?_⟩, ⟨fun h => ?_, fun h => ?_⟩,
      ⟨fun _ => not_lt.mp hb, fun _ => rfl⟩⟩
    · simp at h
    · exact absurd h ha
    · simp at h
    · exact absurd h.2 hb

/-- Witness for C2 at the boundary probability 0.20: it is assigned to
the Medium tier, not to Low. -/
theorem c2_witness : tier_decision (1 / 5) = ("Medium Risk", "MANUAL REVIEW") := by
  have h := c2_decision_thresholds (1 / 5) (by with_unfolding_all decide)
    (by with_unfolding_all decide)
  exact h.2.1.mpr ⟨le_refl _, by with_unfolding_all decide⟩

/-- C3 counterexample: the code truncates `(1 - p) * 1000` with `int()`
instead of rounding, so at probability 0.0734 the pipeline's credit
score is 926 while the claimed `round((1 - p) * 1000)` is 927. -/
theorem c3_counterexample :
    credit_score_of (734 / 10000) = 926 ∧
    round (((1 : ℚ) - 734 / 10000) * 1000) = 927 ∧ (926 : ℤ) ≠ 927 := by
  refine ⟨by with_unfolding_all decide, ?_, by decide⟩
  rw [round_eq, ← ratFloor_eq_floor]
  with_unfolding_all decide

/-- C3 amended: the credit score is the floor (truncation) of
`(1 - p) * 1000`; there is no explicit clamp, but on probabilities in
`[0, 1]` the score automatically lies in `[0, 1000]`. -/
theorem c3_amended_floor_score (p : ℚ) (h0 : 0 ≤ p) (h1 : p ≤ 1) :
    credit_score_of p = ⌊(1 - p) * 1000⌋ ∧
    0 ≤ credit_score_of p ∧ credit_score_of p ≤ 1000 := by
  have hq : (0 : ℚ) ≤ (1 - p) * 1000 := by
    have h : (0 : ℚ) ≤ 1 - p := by linarith
    exact mul_nonneg h (by norm_num)
  have e : credit_score_of p = ⌊(1 - p) * 1000⌋ := by
    unfold credit_score_of pyInt
    rw [if_pos hq, ratFloor_eq_floor]
  refine ⟨e, ?_, ?_⟩
  · rw [e]
    exact Int.floor_nonneg.mpr hq
  · rw [e]
    have hle : (1 - p) * 1000 ≤ 1000 := by nlinarith
    have := Int.floor_le_floor (α := ℚ) hle
    simpa using this

/-- Witness for C3's amended statement at probability 0.0734. -/
theorem c3_amended_witness :
    credit_score_of (734 / 10000) = ⌊((1 : ℚ) - 734 / 10000) * 1000⌋ ∧
    0 ≤ credit_score_of (734 / 10000) ∧ credit_score_of (734 / 10000) ≤ 1000 :=
  c3_amended_floor_score (734 / 10000) (by with_unfolding_all decide)
    (by with_unfolding_all decide)

/-- C9: on the module's own sample request (all required keys, no
`DAYS_ID_PUBLISH`), feature derivation raises `KeyError` at the
`DAYS_ID_PUBLISH` read and `predict` returns the error payload instead
of a score — no neutral default is substituted anywhere. -/
theorem c9_missing_optional_key_fails :
    predict zeroModel zeroShap demoFeatures sampleRequest
      = .error (PyErr.keyError "DAYS_ID_PUBLISH") := by
  with_unfolding_all decide

/-- The descending-absolute-impact comparison is transitive. -/
theorem absLe_trans : ∀ a b c : String × ℚ, absLe a b → absLe b c → absLe a c := by
  intro a b c hab hbc
  simp only [absLe, decide_eq_true_eq] at hab hbc ⊢
  exact le_trans hbc hab

/-- The descending-absolute-impact comparison is total. -/
theorem absLe_total : ∀ a b : String × ℚ, absLe a b || absLe b a := by
  intro a b
  simp only [absLe, Bool.or_eq_true, decide_eq_true_eq]
  exact le_total |b.2| |a.2|

/-- Stability of the explanation sort: within each class of entries of
equal absolute impact, the sorted list keeps exactly the input's
subsequence (Python's stable sort tie behaviour). -/
theorem mergeSort_filter_stable (l : List (String × ℚ)) (v : ℚ) :
    (l.mergeSort absLe).filter (fun x => decide (|x.2| = v))
      = l.filter (fun x => decide (|x.2| = v)) := by
  have hsub : List.Sublist (l.filter (fun x => decide (|x.2| = v))) l := List.filter_sublist l
  have hpw : (l.filter (fun x => decide (|x.2| = v))).Pairwise (fun a b => absLe a b) := by
    apply List.pairwise_of_forall_mem_list
    intro a ha b hb
    have hav : |a.2| = v := of_decide_eq_true (List.mem_filter.mp ha).2
    have hbv : |b.2| = v := of_decide_eq_true (List.mem_filter.mp hb).2
    simp only [absLe, decide_eq_true_eq, hav, hbv, le_refl]
  have hc : List.Sublist (l.filter (fun x => decide (|x.2| = v))) (l.mergeSort absLe) :=
    List.sublist_mergeSort absLe_trans absLe_total hpw hsub
  have hsub2 : List.Sublist (l.filter (fun x => decide (|x.2| = v)))
      ((l.mergeSort absLe).filter (fun x => decide (|x.2| = v))) := by
    have h2 := hc.filter (fun x => decide (|x.2| = v))
    rwa [List.filter_filter, show ((fun x : String × ℚ => decide (|x.2| = v) && decide (|x.2| = v)))
      = (fun x => decide (|x.2| = v)) from funext (fun x => Bool.and_self _)] at h2
  have hperm : List.Perm ((l.mergeSort absLe).filter (fun x => decide (|x.2| = v)))
      (l.filter (fun x => decide (|x.2| = v))) :=
    (List.mergeSort_perm l absLe).filter _
  exact (hsub2.eq_of_length hperm.length_eq.symm).symm

/-- C10: the explanation list is the top-5 prefix of a stable
descending sort of the per-feature contributions — at most 5 entries,
ordered by non-increasing absolute contribution, ties in input order,
direction set by the sign of the (unrounded) contribution, and the
displayed impact rounded to 4 decimal places. -/
theorem c10_top_factors (features : List String) (shapVals : List ℚ) :
    ∃ s : List (String × ℚ),
      s.Perm (features.zip shapVals) ∧
      s.Pairwise (fun a b => |b.2| ≤ |a.2|) ∧
      (∀ v : ℚ, s.filter (fun x => decide (|x.2| = v))
          = (features.zip shapVals).filter (fun x => decide (|x.2| = v))) ∧
      get_top_factors features shapVals
        = (s.take 5).map (fun p =>
            ⟨p.1, pyRound4 p.2, if p.2 > 0 then "INCREASES Risk" else "REDUCES Risk"⟩) ∧
      (get_top_factors features shapVals).length ≤ 5 := by
  refine ⟨(features.zip shapVals).mergeSort absLe,
    List.mergeSort_perm _ _, ?_, fun v => mergeSort_filter_stable _ v, rfl, ?_⟩
  · have h := List.sorted_mergeSort absLe_trans absLe_total (features.zip shapVals)
    exact h.imp (fun hab => by simpa [absLe, decide_eq_true_eq] using hab)
  · unfold get_top_factors
    simp only [List.length_map]
    exact List.length_take_le 5 _

/-- Replacing a column's payload does not change any column label. -/
theorem name_setRep (c : String) (o : Bool) (vs : List Val) (col : Col) :
    (if col.name == c then (⟨col.name, o, vs⟩ : Col) else col).name = col.name := by
  split <;> rfl

/-- `find?` by label commutes with mapping a label-preserving function
over the frame. -/
theorem find?_map_name (g : Col → Col) (hg : ∀ col, (g col).name = col.name)
    (f : Frame) (c : String) :
    (f.map g).find? (fun col => col.name == c)
      = (f.find? (fun col => col.name == c)).map g := by
  rw [List.find?_map]
  have hcomp : ((fun col : Col => col.name == c) ∘ g) = (fun col : Col => col.name == c) := by
    funext col
    simp only [Function.comp_apply, hg]
  rw [hcomp]

/-- Column presence is unchanged by mapping a label-preserving function. -/
theorem hasCol_map_name (g : Col → Col) (hg : ∀ col, (g col).name = col.name)
    (f : Frame) (c : String) :
    hasCol (f.map g) c = hasCol f c := by
  unfold hasCol
  rw [List.any_map]
  have hcomp : ((fun col : Col => col.name == c) ∘ g) = (fun col : Col => col.name == c) := by
    funext col
    simp only [Function.comp_apply, hg]
  rw [hcomp]

/-- `find?` over the replacement map, looking up the replaced label. -/
theorem find?_map_rep (f : Frame) (c : String) (o : Bool) (vs : List Val)
    (h : hasCol f c = true) :
    (f.map (fun col => if col.name == c then (⟨col.name, o, vs⟩ : Col) else col)).find?
      (fun col => col.name == c) = some ⟨c, o, vs⟩ := by
  rw [find?_map_name _ (name_setRep c o vs) f c]
  obtain ⟨col₁, hfind⟩ : ∃ col₁, f.find? (fun col => col.name == c) = some col₁ := by
    rw [← Option.isSome_iff_exists, List.find?_isSome]
    simpa only [hasCol, List.any_eq_true] using h
  have hp0 := List.find?_some hfind
  have hp : (col₁.name == c) = true := hp0
  rw [hfind, Option.map_some']
  show some (if col₁.name == c then (⟨col₁.name, o, vs⟩ : Col) else col₁)
    = some (⟨c, o, vs⟩ : Col)
  rw [if_pos hp, eq_of_beq hp]

/-- `find?` over the replacement map, looking up a different label. -/
theorem find?_map_rep_ne (f : Frame) (c c' : String) (o : Bool) (vs : List Val)
    (h : c ≠ c') :
    (f.map (fun col => if col.name == c' then (⟨col.name, o, vs⟩ : Col) else col)).find?
      (fun col => col.name == c) = f.find? (fun col => col.name == c) := by
  rw [find?_map_name _ (name_setRep c' o vs) f c]
  cases hfind : f.find? (fun col => col.name == c) with
  | none => rfl
  | some col₁ =>
    rw [Option.map_some']
    show some (if col₁.name == c' then (⟨col₁.name, o, vs⟩ : Col) else col₁) = some col₁
    have hp0 := List.find?_some hfind
    have hp : (col₁.name == c) = true := hp0
    have hfalse : (col₁.name == c') = false := by
      rw [eq_of_beq hp]
      exact beq_eq_false_iff_ne.mpr h
    rw [if_neg (by simp [hfalse])]

/-- Reading back the column that `setCol` just wrote. -/
theorem getColVals_setCol_self (f : Frame) (c : String) (o : Bool) (vs : List Val) :
    getColVals (setCol f c o vs) c = .ok vs := by
  unfold setCol
  split
  case isTrue h =>
    unfold getColVals
    rw [find?_map_rep f c o vs h]
  case isFalse h =>
    unfold getColVals
    have hnone : f.find? (fun col => col.name == c) = none := by
      rw [List.find?_eq_none]
      intro col hcol hbeq
      exact h (by simp only [hasCol, List.any_eq_true]; exact ⟨col, hcol, hbeq⟩)
    rw [List.find?_append, hnone]
    simp [List.find?_cons]

/-- Reading a column other than the one `setCol` wrote. -/
theorem getColVals_setCol_ne (f : Frame) (c c' : String) (o : Bool) (vs : List Val)
    (h : c ≠ c') :
    getColVals (setCol f c' o vs) c = getColVals f c := by
  unfold setCol
  split
  case isTrue hc =>
    unfold getColVals
    rw [find?_map_rep_ne f c c' o vs h]
  case isFalse hc =>
    unfold getColVals
    rw [List.find?_append]
    cases hf : f.find? (fun col => col.name == c) with
    | some col => rfl
    | none =>
      have hone : ([(⟨c', o, vs⟩ : Col)].find? (fun col => col.name == c)) = none := by
        rw [List.find?_eq_none]
        intro x hx hpx
        rw [List.mem_singleton.mp hx] at hpx
        exact h (eq_of_beq hpx).symm
      rw [hone]
      rfl

/-- A successful column read means the label is present. -/
theorem hasCol_of_getColVals_ok (f : Frame) (c : String) (vs : List Val)
    (h : getColVals f c = .ok vs) : hasCol f c = true := by
  unfold getColVals at h
  cases hf : f.find? (fun col => col.name == c) with
  | none => rw [hf] at h; cases h
  | some col =>
    have hp0 := List.find?_some hf
    have hp : (col.name == c) = true := hp0
    simp only [hasCol, List.any_eq_true]
    exact ⟨col, List.mem_of_find?_eq_some hf, hp⟩

/-- `setCol` leaves its own label present. -/
theorem hasCol_setCol_self (f : Frame) (c : String) (o : Bool) (vs : List Val) :
    hasCol (setCol f c o vs) c = true := by
  unfold setCol
  split
  case isTrue h =>
    rw [hasCol_map_name _ (name_setRep c o vs)]
    exact h
  case isFalse h =>
    simp [hasCol, List.any_append, List.any_cons]

/-- `setCol` keeps every label that was already present. -/
theorem hasCol_setCol_other (f : Frame) (c c' : String) (o : Bool) (vs : List Val)
    (h : hasCol f c = true) : hasCol (setCol f c' o vs) c = true := by
  unfold setCol
  split
  case isTrue hc =>
    rw [hasCol_map_name _ (name_setRep c' o vs)]
    exact h
  case isFalse hc =>
    simp only [hasCol, List.any_append, Bool.or_eq_true]
    exact Or.inl h

/-- Writing the same payload to the same column twice is one write. -/
theorem setCol_setCol_same (f : Frame) (c : String) (o : Bool) (vs : List Val) :
    setCol (setCol f c o vs) c o vs = setCol f c o vs := by
  by_cases h : hasCol f c = true
  · unfold setCol
    rw [if_pos h]
    have h2 : hasCol (f.map (fun col => if col.name == c then (⟨col.name, o, vs⟩ : Col) else col)) c
        = true := by
      rw [hasCol_map_name _ (name_setRep c o vs)]
      exact h
    rw [if_pos h2, List.map_map]
    refine List.map_congr_left ?_
    intro col _
    by_cases hc : (col.name == c) = true <;> simp [Function.comp, hc]
  · unfold setCol
    rw [if_neg h]
    have h2 : hasCol (f ++ [(⟨c, o, vs⟩ : Col)]) c = true := by
      simp [hasCol, List.any_append, List.any_cons]
    rw [if_pos h2, List.map_append]
    have hf : f.map (fun col => if col.name == c then (⟨col.name, o, vs⟩ : Col) else col) = f := by
      have : ∀ col ∈ f, (if col.name == c then (⟨col.name, o, vs⟩ : Col) else col) = col := by
        intro col hcol
        have : (col.name == c) = false := by
          by_contra hb
          exact h (by
            simp only [hasCol, List.any_eq_true]
            exact ⟨col, hcol, by simpa using hb⟩)
        simp [this]
      rw [List.map_congr_left this, List.map_id']
    rw [hf]
    simp [List.map_cons]

/-- Writes to two distinct, already-present columns commute. -/
theorem setCol_setCol_comm (f : Frame) (c c' : String) (o o' : Bool)
    (vs vs' : List Val) (hc : hasCol f c = true) (hc' : hasCol f c' = true) (h : c ≠ c') :
    setCol (setCol f c o vs) c' o' vs' = setCol (setCol f c' o' vs') c o vs := by
  unfold setCol
  rw [if_pos hc, if_pos hc']
  have h1 : hasCol (f.map (fun col => if col.name == c then (⟨col.name, o, vs⟩ : Col) else col)) c'
      = true := by
    rw [hasCol_map_name _ (name_setRep c o vs)]
    exact hc'
  have h2 : hasCol (f.map (fun col => if col.name == c' then (⟨col.name, o', vs'⟩ : Col) else col)) c
      = true := by
    rw [hasCol_map_name _ (name_setRep c' o' vs')]
    exact hc
  rw [if_pos h1, if_pos h2, List.map_map, List.map_map]
  refine List.map_congr_left ?_
  intro col _
  by_cases hbc : (col.name == c) = true
  · have : (col.name == c') = false := by
      have := eq_of_beq hbc
      simp [this]
      exact h
    simp [Function.comp, hbc, this]
  · by_cases hbc' : (col.name == c') = true
    · simp [Function.comp, hbc, hbc', name_setRep]
    · simp [Function.comp, hbc, hbc']

/-- C5: on a single-record frame, the anomaly correction sets the
`DAYS_EMPLOYED_ANOM` flag to 1 and replaces `DAYS_EMPLOYED` with the
missing marker exactly when the stored value is the sentinel 365243;
any other value keeps flag 0 and an unchanged `DAYS_EMPLOYED`. -/
theorem c5_sentinel_correction (r : Record) (v : Val)
    (h : getColVals (frameOfRecord r) "DAYS_EMPLOYED" = .ok [v]) :
    ∃ f2, clean_employment_anomaly (frameOfRecord r) = .ok f2 ∧
      getColVals f2 "DAYS_EMPLOYED_ANOM"
        = .ok [if v = Val.num 365243 then Val.num 1 else Val.num 0] ∧
      getColVals f2 "DAYS_EMPLOYED" = .ok [if v = Val.num 365243 then Val.nan else v] := by
  have hne : ("DAYS_EMPLOYED" : String) ≠ "DAYS_EMPLOYED_ANOM" := by decide
  have hne' : ("DAYS_EMPLOYED_ANOM" : String) ≠ "DAYS_EMPLOYED" := by decide
  have hf1 : getColVals (setCol (frameOfRecord r) "DAYS_EMPLOYED_ANOM" false
      ([v].map anomFlag)) "DAYS_EMPLOYED" = .ok [v] := by
    rw [getColVals_setCol_ne _ _ _ _ _ hne]
    exact h
  have hclean : clean_employment_anomaly (frameOfRecord r)
      = .ok (setCol (setCol (frameOfRecord r) "DAYS_EMPLOYED_ANOM" false ([v].map anomFlag))
          "DAYS_EMPLOYED" false ([v].map sentinelToNan)) := by
    simp only [clean_employment_anomaly, h, hf1, ok_bind]
    rfl
  refine ⟨_, hclean, ?_, ?_⟩
  · rw [getColVals_setCol_ne _ _ _ _ _ hne', getColVals_setCol_self]
    simp [anomFlag]
  · rw [getColVals_setCol_self]
    simp [sentinelToNan]

/-- Witness for C5 on a concrete sentinel-valued record. -/
theorem c5_witness :
    ∃ f2, clean_employment_anomaly (frameOfRecord [("DAYS_EMPLOYED", Val.num 365243)])
        = .ok f2 ∧
      getColVals f2 "DAYS_EMPLOYED_ANOM"
        = .ok [if Val.num 365243 = Val.num 365243 then Val.num 1 else Val.num 0] ∧
      getColVals f2 "DAYS_EMPLOYED"
        = .ok [if Val.num 365243 = Val.num 365243 then Val.nan else Val.num 365243] :=
  c5_sentinel_correction [("DAYS_EMPLOYED", Val.num 365243)] (Val.num 365243)
    (by with_unfolding_all decide)

/-- C4 counterexample: re-cleaning a frame whose `DAYS_EMPLOYED` was
already replaced by the missing marker resets the anomaly flag from 1
back to 0, so cleaning applied twice differs from cleaning applied
once. -/
theorem c4_counterexample :
    ((clean_employment_anomaly (frameOfRecord [("DAYS_EMPLOYED", Val.num 365243)])) >>=
        fun g => getColVals g "DAYS_EMPLOYED_ANOM") = .ok [Val.num 1] ∧
    ((clean_employment_anomaly (frameOfRecord [("DAYS_EMPLOYED", Val.num 365243)]) >>=
        clean_employment_anomaly) >>=
        fun g => getColVals g "DAYS_EMPLOYED_ANOM") = .ok [Val.num 0] ∧
    (clean_employment_anomaly (frameOfRecord [("DAYS_EMPLOYED", Val.num 365243)]) >>=
        clean_employment_anomaly)
      ≠ clean_employment_anomaly (frameOfRecord [("DAYS_EMPLOYED", Val.num 365243)]) := by
  refine ⟨by with_unfolding_all decide, by with_unfolding_all decide,
    by with_unfolding_all decide⟩

/-- C4 amended: the employment-anomaly correction is idempotent exactly
in the absence of the sentinel — when no `DAYS_EMPLOYED` cell holds
365243, cleaning twice equals cleaning once (on a sentinel-bearing
record the second pass recomputes the flag from the substituted marker
and resets it to 0, as the counterexample shows). -/
theorem c4_amended_idempotent (f : Frame) (vals : List Val)
    (h : getColVals f "DAYS_EMPLOYED" = .ok vals) (hs : Val.num 365243 ∉ vals) :
    (clean_employment_anomaly f >>= clean_employment_anomaly)
      = clean_employment_anomaly f := by
  have hne : ("DAYS_EMPLOYED" : String) ≠ "DAYS_EMPLOYED_ANOM" := by decide
  have hmap : vals.map sentinelToNan = vals := by
    have hpt : ∀ x ∈ vals, sentinelToNan x = id x := by
      intro x hx
      have hxne : x ≠ Val.num 365243 := fun hh => hs (hh ▸ hx)
      simp [sentinelToNan, hxne]
    rw [List.map_congr_left hpt, List.map_id]
  have hDE : hasCol f "DAYS_EMPLOYED" = true := hasCol_of_getColVals_ok f _ vals h
  have hf1DE : getColVals (setCol f "DAYS_EMPLOYED_ANOM" false (vals.map anomFlag))
      "DAYS_EMPLOYED" = .ok vals := by
    rw [getColVals_setCol_ne _ _ _ _ _ hne]
    exact h
  have hclean : clean_employment_anomaly f
      = .ok (setCol (setCol f "DAYS_EMPLOYED_ANOM" false (vals.map anomFlag))
          "DAYS_EMPLOYED" false vals) := by
    simp only [clean_employment_anomaly, h, hf1DE, ok_bind, hmap]
    rfl
  have hfpDE : getColVals (setCol (setCol f "DAYS_EMPLOYED_ANOM" false (vals.map anomFlag))
      "DAYS_EMPLOYED" false vals) "DAYS_EMPLOYED" = .ok vals := getColVals_setCol_self _ _ _ _
  have hfpANOMDE : getColVals (setCol (setCol (setCol f "DAYS_EMPLOYED_ANOM" false
      (vals.map anomFlag)) "DAYS_EMPLOYED" false vals) "DAYS_EMPLOYED_ANOM" false
      (vals.map anomFlag)) "DAYS_EMPLOYED" = .ok vals := by
    rw [getColVals_setCol_ne _ _ _ _ _ hne]
    exact hfpDE
  have hcomm : setCol (setCol (setCol f "DAYS_EMPLOYED_ANOM" false (vals.map anomFlag))
      "DAYS_EMPLOYED" false vals) "DAYS_EMPLOYED_ANOM" false (vals.map anomFlag)
      = setCol (setCol f "DAYS_EMPLOYED_ANOM" false (vals.map anomFlag))
          "DAYS_EMPLOYED" false vals := by
    rw [setCol_setCol_comm (setCol f "DAYS_EMPLOYED_ANOM" false (vals.map anomFlag))
      "DAYS_EMPLOYED" "DAYS_EMPLOYED_ANOM" false false vals (vals.map anomFlag)
      (hasCol_setCol_other f "DAYS_EMPLOYED" "DAYS_EMPLOYED_ANOM" false (vals.map anomFlag) hDE)
      (hasCol_setCol_self f "DAYS_EMPLOYED_ANOM" false (vals.map anomFlag)) hne,
      setCol_setCol_same]
  have hclean2 : clean_employment_anomaly (setCol (setCol f "DAYS_EMPLOYED_ANOM" false
      (vals.map anomFlag)) "DAYS_EMPLOYED" false vals)
      = .ok (setCol (setCol f "DAYS_EMPLOYED_ANOM" false (vals.map anomFlag))
          "DAYS_EMPLOYED" false vals) := by
    simp only [clean_employment_anomaly, hfpDE, hfpANOMDE, ok_bind, hmap, hcomm,
      setCol_setCol_same]
    rfl
  rw [hclean, ok_bind, hclean2]

/-- Witness for C4's amended idempotence on a sentinel-free record. -/
theorem c4_amended_witness :
    (clean_employment_anomaly (frameOfRecord [("DAYS_EMPLOYED", Val.num 5)]) >>=
        clean_employment_anomaly)
      = clean_employment_anomaly (frameOfRecord [("DAYS_EMPLOYED", Val.num 5)]) :=
  c4_amended_idempotent (frameOfRecord [("DAYS_EMPLOYED", Val.num 5)]) [Val.num 5]
    (by with_unfolding_all decide) (by with_unfolding_all decide)

/-- The aligned column for registry name `c` carries exactly that name,
whether it came from the derived frame or from the fill. -/
theorem name_reindexCol (f : Frame) (c : String) : (reindexCol f c).name = c := by
  unfold reindexCol
  cases hf : f.find? (fun col => col.name == c) with
  | none => rfl
  | some col =>
    have hp0 := List.find?_some hf
    have hp : (col.name == c) = true := hp0
    exact eq_of_beq hp

/-- Looking up a registry name in the aligned frame returns its aligned
column. -/
theorem find?_map_reindexCol (d : Frame) (features : List String) (c : String)
    (h : c ∈ features) :
    (features.map (reindexCol d)).find? (fun col => col.name == c)
      = some (reindexCol d c) := by
  induction features with
  | nil => cases h
  | cons a rest ih =>
    rw [List.map_cons]
    by_cases hac : a = c
    · subst hac
      have hp : ((reindexCol d a).name == a) = true := by
        rw [name_reindexCol]
        exact beq_self_eq_true a
      exact List.find?_cons_of_pos _ hp
    · have hp : ((reindexCol d a).name == c) = false := by
        rw [name_reindexCol]
        exact beq_eq_false_iff_ne.mpr hac
      rw [List.find?_cons_of_neg _ (by simp [hp])]
      exact ih ((List.mem_cons.mp h).resolve_left (fun hh => hac hh.symm))

/-- C1: whenever preprocessing accepts a request, the aligned frame has
exactly the registry's labels, in registry order and count (each
registry name exactly once when the registry has no duplicates); every
registry name missing from the derived frame is present as the fill
column of zeros, and every present one keeps its derived column. -/
theorem c1_alignment_shape (features : List String) (data : Record) (g : Frame)
    (h : preprocess_input features data = .ok g) :
    g.map (fun col => col.name) = features ∧
    g.length = features.length ∧
    (features.Nodup → ∀ c ∈ features, (g.map (fun col => col.name)).count c = 1) ∧
    ∃ d, (run_cleaning_pipeline (frameOfRecord data) >>= run_feature_engineering) = .ok d ∧
      (∀ c ∈ features, d.find? (fun col => col.name == c) = none →
        g.find? (fun col => col.name == c) = some (fillCol c (nRows d))) ∧
      (∀ c ∈ features, ∀ col, d.find? (fun col0 => col0.name == c) = some col →
        g.find? (fun col0 => col0.name == c) = some col) := by
  unfold preprocess_input at h
  cases hcl : run_cleaning_pipeline (frameOfRecord data) with
  | error e => rw [hcl, error_bind] at h; cases h
  | ok f1 =>
    rw [hcl, ok_bind] at h
    cases hfe : run_feature_engineering f1 with
    | error e => rw [hfe, error_bind] at h; cases h
    | ok d =>
      rw [hfe, ok_bind] at h
      unfold reindex at h
      split at h
      case isFalse => cases h
      case isTrue hnd =>
        have hg : g = features.map (reindexCol d) := (Except.ok.inj h).symm
        subst hg
        have hnames : (features.map (reindexCol d)).map (fun col => col.name) = features := by
          rw [List.map_map]
          have hpt : ∀ c ∈ features, ((fun col => col.name) ∘ reindexCol d) c = (fun a => a) c :=
            fun c _ => name_reindexCol d c
          rw [List.map_congr_left hpt, List.map_id']
        refine ⟨hnames, by rw [List.length_map], ?_, d, by rw [ok_bind, hfe], ?_, ?_⟩
        · intro hnd' c hc
          rw [hnames]
          exact List.count_eq_one_of_mem hnd' hc
        · intro c hc hnone
          rw [find?_map_reindexCol d features c hc]
          unfold reindexCol
          rw [hnone]
        · intro c hc col hsome
          rw [find?_map_reindexCol d features c hc]
          unfold reindexCol
          rw [hsome]

/-- Witness for C1: the concrete full request aligned to the demo
registry yields exactly the registry's labels in order. -/
theorem c1_witness : demoProcessed.map (fun col => col.name) = demoFeatures :=
  (c1_alignment_shape demoFeatures fullRequest demoProcessed (by with_unfolding_all rfl)).1

/-- C8 counterexample: on a request with two distinct attributes
"A B" and "AB" that normalize to the same label, cleaning plus feature
derivation succeeds (no error is raised at derivation time) and the
derived frame simply carries the label "AB" twice. -/
theorem c8_counterexample :
    ((run_cleaning_pipeline (frameOfRecord collideRequest)) >>= run_feature_engineering).map
      (fun d => (d.map (fun col => col.name)).count "AB") = .ok 2 := by
  with_unfolding_all decide

/-- C8 amended: the collision is not detected at derivation time — the
derived frame silently carries duplicate labels — but it still cannot
be silently merged into a prediction: the alignment step refuses to
reindex a duplicate column axis, so the request fails there with a
`ValueError`. -/
theorem c8_amended_collision_fails_at_alignment (features : List String) (data : Record)
    (d : Frame)
    (hd : (run_cleaning_pipeline (frameOfRecord data) >>= run_feature_engineering) = .ok d)
    (hdup : ¬ (d.map (fun col => col.name)).Nodup) :
    preprocess_input features data = .error PyErr.valueError := by
  unfold preprocess_input
  cases hcl : run_cleaning_pipeline (frameOfRecord data) with
  | error e => rw [hcl, error_bind] at hd; cases hd
  | ok f1 =>
    rw [hcl, ok_bind] at hd
    simp only [ok_bind]
    cases hfe : run_feature_engineering f1 with
    | error e => rw [hfe] at hd; cases hd
    | ok d' =>
      rw [hfe] at hd
      simp only [ok_bind]
      have hdd : d' = d := Except.ok.inj hd
      subst hdd
      unfold reindex
      rw [if_neg hdup]

/-- Witness for C8's amended statement on the concrete colliding
request. -/
theorem c8_amended_witness :
    preprocess_input demoFeatures collideRequest = .error PyErr.valueError :=
  c8_amended_collision_fails_at_alignment demoFeatures collideRequest collideDerived
    (by with_unfolding_all rfl) (by with_unfolding_all decide)

/-- One step of building a one-row frame from a dict. -/
theorem frameOfRecord_cons (kv : String × Val) (rest : Record) :
    frameOfRecord (kv :: rest)
      = (⟨kv.1, isStrVal kv.2, [kv.2]⟩ : Col) :: frameOfRecord rest := rfl

/-- Reading a column of the one-row frame is looking up the dict key. -/
theorem getColVals_frameOfRecord (r : Record) (k : String) :
    getColVals (frameOfRecord r) k
      = match r.lookup k with
        | some v => .ok [v]
        | none => .error (.keyError k) := by
  induction r with
  | nil => rfl
  | cons kv rest ih =>
    obtain ⟨k1, v1⟩ := kv
    rw [frameOfRecord_cons]
    unfold getColVals at ih ⊢
    by_cases hk : k1 = k
    · have hbeq : ((⟨k1, isStrVal v1, [v1]⟩ : Col).name == k) = true := beq_iff_eq.mpr hk
      have hfind : List.find? (fun col => col.name == k)
          ((⟨k1, isStrVal v1, [v1]⟩ : Col) :: frameOfRecord rest)
          = some ⟨k1, isStrVal v1, [v1]⟩ := List.find?_cons_of_pos _ hbeq
      have hbeq' : (k == k1) = true := beq_iff_eq.mpr hk.symm
      rw [hfind, List.lookup_cons, hbeq']
    · have hbeq : ((⟨k1, isStrVal v1, [v1]⟩ : Col).name == k) = false :=
        beq_eq_false_iff_ne.mpr hk
      have hfind : List.find? (fun col => col.name == k)
          ((⟨k1, isStrVal v1, [v1]⟩ : Col) :: frameOfRecord rest)
          = List.find? (fun col => col.name == k) (frameOfRecord rest) :=
        List.find?_cons_of_neg _ (by simp [hbeq])
      have hbeq' : (k == k1) = false := beq_eq_false_iff_ne.mpr (fun hh => hk hh.symm)
      rw [hfind, List.lookup_cons, hbeq']
      exact ih

/-- Every column of a one-row frame holds exactly one cell. -/
theorem frameOfRecord_uniform (r : Record) :
    ∀ col ∈ frameOfRecord r, col.vals.length = 1 := by
  intro col hcol
  obtain ⟨kv, _, heq⟩ := List.mem_map.mp hcol
  rw [← heq]
  rfl

/-- Filtering rows by an all-false singleton mask empties every column. -/
theorem applyMask_false (vs : List Val) : applyMask vs [false] = [] := by
  cases vs <;> simp [applyMask]

/-- Filtering rows by an all-true singleton mask keeps a one-cell column. -/
theorem applyMask_true (v : Val) : applyMask [v] [true] = [v] := rfl

/-- `setCol` preserves any per-column property of the value lists, as
long as the written list has it too. -/
theorem setCol_vals_prop (P : List Val → Prop) (f : Frame) (c : String) (o : Bool)
    (vs : List Val) (hall : ∀ col ∈ f, P col.vals) (hvs : P vs) :
    ∀ col ∈ setCol f c o vs, P col.vals := by
  intro col hcol
  unfold setCol at hcol
  split at hcol
  case isTrue h =>
    obtain ⟨col₀, hmem, heq⟩ := List.mem_map.mp hcol
    by_cases hb : (col₀.name == c) = true
    · rw [if_pos hb] at heq
      rw [← heq]
      exact hvs
    · rw [if_neg hb] at heq
      rw [← heq]
      exact hall col₀ hmem
  case isFalse h =>
    rcases List.mem_append.mp hcol with h1 | h2
    · exact hall col h1
    · rw [List.mem_singleton.mp h2]
      exact hvs

/-- After `setCol`, every column carrying the written label carries the
written values. -/
theorem setCol_vals_of_name (f : Frame) (c : String) (o : Bool) (vs : List Val) :
    ∀ col ∈ setCol f c o vs, col.name = c → col.vals = vs := by
  intro col hcol hname
  unfold setCol at hcol
  split at hcol
  case isTrue h =>
    obtain ⟨col₀, hmem, heq⟩ := List.mem_map.mp hcol
    by_cases hb : (col₀.name == c) = true
    · rw [if_pos hb] at heq
      rw [← heq]
    · rw [if_neg hb] at heq
      rw [← heq] at hname
      exact absurd (beq_iff_eq.mpr hname) (by simpa using hb)
  case isFalse h =>
    rcases List.mem_append.mp hcol with h1 | h2
    · exact absurd (by
        simp only [hasCol, List.any_eq_true]
        exact ⟨col, h1, beq_iff_eq.mpr hname⟩) h
    · rw [List.mem_singleton.mp h2]

/-- A frame whose columns all hold one cell is unchanged by the
all-true singleton row mask. -/
theorem filterRows_true (f : Frame) (hu : ∀ col ∈ f, col.vals.length = 1) :
    filterRows f [true] = f := by
  unfold filterRows
  have hpt : ∀ col ∈ f, (⟨col.name, col.isObj, applyMask col.vals [true]⟩ : Col)
      = (fun a => a) col := by
    intro col hcol
    obtain ⟨v, hv⟩ := List.length_eq_one.mp (hu col hcol)
    rw [hv, applyMask_true]
    cases col
    simp at hv
    rw [hv]
  rw [List.map_congr_left hpt, List.map_id']

/-- An all-empty frame has no rows. -/
theorem nRows_eq_zero (f : Frame) (hall : ∀ col ∈ f, col.vals = []) : nRows f = 0 := by
  cases f with
  | nil => rfl
  | cons col rest =>
    show col.vals.length = 0
    rw [hall col (List.mem_cons_self col rest)]
    rfl

/-- A nonempty uniform one-cell frame has exactly one row. -/
theorem nRows_eq_one (f : Frame) (hne : f ≠ []) (hu : ∀ col ∈ f, col.vals.length = 1) :
    nRows f = 1 := by
  cases f with
  | nil => exact absurd rfl hne
  | cons col rest => exact hu col (List.mem_cons_self col rest)

/-- The frame produced by a successful employment-anomaly correction. -/
theorem clean_employment_shape (f f1 : Frame) (de : List Val)
    (hde : getColVals f "DAYS_EMPLOYED" = .ok de)
    (h : clean_employment_anomaly f = .ok f1) :
    f1 = setCol (setCol f "DAYS_EMPLOYED_ANOM" false (de.map anomFlag))
        "DAYS_EMPLOYED" false (de.map sentinelToNan) := by
  have hde2 : getColVals (setCol f "DAYS_EMPLOYED_ANOM" false (de.map anomFlag))
      "DAYS_EMPLOYED" = .ok de := by
    rw [getColVals_setCol_ne _ _ _ _ _ (by decide)]
    exact hde
  simp only [clean_employment_anomaly, hde, hde2, ok_bind] at h
  exact (Except.ok.inj h).symm

/-- The anomaly correction leaves all other columns' reads unchanged. -/
theorem clean_employment_preserves (f f1 : Frame) (c : String)
    (hc1 : c ≠ "DAYS_EMPLOYED") (hc2 : c ≠ "DAYS_EMPLOYED_ANOM")
    (h : clean_employment_anomaly f = .ok f1) :
    getColVals f1 c = getColVals f c := by
  cases hde : getColVals f "DAYS_EMPLOYED" with
  | error e => simp only [clean_employment_anomaly, hde, error_bind] at h; cases h
  | ok de =>
    rw [clean_employment_shape f f1 de hde h,
      getColVals_setCol_ne _ _ _ _ _ hc1, getColVals_setCol_ne _ _ _ _ _ hc2]

/-- `pure` in the `Except` monad is `ok`. -/
theorem pure_eq_ok {α : Type} (a : α) : (pure a : Except PyErr α) = .ok a := rfl

/-- A column read from an all-empty frame returns the empty list. -/
theorem getColVals_nil_of_allNil (f : Frame) (c : String) (vs : List Val)
    (hall : ∀ col ∈ f, col.vals = []) (h : getColVals f c = .ok vs) : vs = [] := by
  unfold getColVals at h
  cases hf : f.find? (fun col => col.name == c) with
  | none => rw [hf] at h; cases h
  | some col =>
    rw [hf] at h
    rw [← Except.ok.inj h]
    exact hall col (List.mem_of_find?_eq_some hf)

/-- Feature derivation on an all-empty (0-row) frame yields an
all-empty frame: every derived column is built elementwise over empty
columns. -/
theorem allNil_create_domain (f d : Frame) (hall : ∀ col ∈ f, col.vals = [])
    (hd : create_domain_features f = .ok d) : ∀ col ∈ d, col.vals = [] := by
  have step : ∀ (g : Frame) (c : String), (∀ col ∈ g, col.vals = []) →
      ∀ col ∈ setCol g c false [], col.vals = [] :=
    fun g c hg => setCol_vals_prop (fun vs => vs = []) g c false [] hg rfl
  cases h1 : getColVals f "AMT_CREDIT" with
  | error e => simp only [create_domain_features, h1, error_bind] at hd; cases hd
  | ok credit =>
  obtain rfl : credit = [] := getColVals_nil_of_allNil f _ credit hall h1
  cases h2 : getColVals f "AMT_INCOME_TOTAL" with
  | error e =>
    simp only [create_domain_features, h1, h2, ok_bind, error_bind] at hd
    cases hd
  | ok income =>
  obtain rfl : income = [] := getColVals_nil_of_allNil f _ income hall h2
  have hall1 := step f "CREDIT_INCOME_PERCENT" hall
  cases h3 : getColVals (setCol f "CREDIT_INCOME_PERCENT" false []) "AMT_ANNUITY" with
  | error e =>
    simp only [create_domain_features, h1, h2, h3, ok_bind, error_bind,
      List.zipWith_nil_left] at hd
    cases hd
  | ok annuity =>
  obtain rfl : annuity = [] := getColVals_nil_of_allNil _ _ annuity hall1 h3
  have hall2 := step _ "ANNUITY_INCOME_PERCENT" hall1
  have hall3 := step _ "CREDIT_TERM" hall2
  cases h4 : getColVals (setCol (setCol (setCol f "CREDIT_INCOME_PERCENT" false [])
      "ANNUITY_INCOME_PERCENT" false []) "CREDIT_TERM" false []) "AMT_GOODS_PRICE" with
  | error e =>
    simp only [create_domain_features, h1, h2, h3, h4, ok_bind, error_bind,
      List.zipWith_nil_left] at hd
    cases hd
  | ok goods =>
  obtain rfl : goods = [] := getColVals_nil_of_allNil _ _ goods hall3 h4
  have hall4 := step _ "GOODS_LOAN_RATIO" hall3
  cases h5 : getColVals (setCol (setCol (setCol (setCol f "CREDIT_INCOME_PERCENT" false [])
      "ANNUITY_INCOME_PERCENT" false []) "CREDIT_TERM" false [])
      "GOODS_LOAN_RATIO" false []) "DAYS_ID_PUBLISH" with
  | error e =>
    simp only [create_domain_features, h1, h2, h3, h4, h5, ok_bind, error_bind,
      List.zipWith_nil_left] at hd
    cases hd
  | ok idpub =>
  obtain rfl : idpub = [] := getColVals_nil_of_allNil _ _ idpub hall4 h5
  have hall5 := step _ "ID_AGE_YEARS" hall4
  cases h6 : getColVals (setCol (setCol (setCol (setCol (setCol f
      "CREDIT_INCOME_PERCENT" false []) "ANNUITY_INCOME_PERCENT" false [])
      "CREDIT_TERM" false []) "GOODS_LOAN_RATIO" false [])
      "ID_AGE_YEARS" false []) "DAYS_BIRTH" with
  | error e =>
    simp only [create_domain_features, h1, h2, h3, h4, h5, h6, ok_bind, error_bind,
      List.zipWith_nil_left, List.map_nil] at hd
    cases hd
  | ok birth =>
  obtain rfl : birth = [] := getColVals_nil_of_allNil _ _ birth hall5 h6
  cases h7 : getColVals (setCol (setCol (setCol (setCol (setCol f
      "CREDIT_INCOME_PERCENT" false []) "ANNUITY_INCOME_PERCENT" false [])
      "CREDIT_TERM" false []) "GOODS_LOAN_RATIO" false [])
      "ID_AGE_YEARS" false []) "ID_AGE_YEARS" with
  | error e =>
    simp only [create_domain_features, h1, h2, h3, h4, h5, h6, h7, ok_bind, error_bind,
      List.zipWith_nil_left, List.map_nil] at hd
    cases hd
  | ok idage =>
  obtain rfl : idage = [] := getColVals_nil_of_allNil _ _ idage hall5 h7
  simp only [create_domain_features, h1, h2, h3, h4, h5, h6, h7, ok_bind,
    List.zipWith_nil_left, List.map_nil, pure_eq_ok] at hd
  rw [← Except.ok.inj hd]
  exact step _ "ID_TO_AGE_RATIO" hall5

/-- Categorical encoding of an all-empty frame is all-empty: the kept
numeric columns are unchanged and each indicator column maps over an
empty column. -/
theorem allNil_encode (f : Frame) (hall : ∀ col ∈ f, col.vals = []) :
    ∀ col ∈ encode_categoricals f, col.vals = [] := by
  intro col hcol
  unfold encode_categoricals at hcol
  rcases List.mem_append.mp hcol with h1 | h2
  · exact hall col (List.mem_filter.mp h1).1
  · obtain ⟨colObj, hmemObj, hdum⟩ := List.mem_flatMap.mp h2
    obtain ⟨cat, _, heq⟩ := List.mem_map.mp hdum
    rw [← heq]
    show colObj.vals.map (fun v => if v = Val.str cat then Val.num 1 else Val.num 0) = []
    rw [hall colObj (List.mem_filter.mp hmemObj).1]
    rfl

/-- Feature engineering on an all-empty frame yields an all-empty
frame. -/
theorem allNil_run_FE (f d : Frame) (hall : ∀ col ∈ f, col.vals = [])
    (hd : run_feature_engineering f = .ok d) : ∀ col ∈ d, col.vals = [] := by
  cases h1 : create_domain_features f with
  | error e => simp only [run_feature_engineering, h1, error_bind] at hd; cases hd
  | ok d1 =>
    simp only [run_feature_engineering, h1, ok_bind, pure_eq_ok] at hd
    have henc := allNil_encode d1 (allNil_create_domain f d1 hall h1)
    rw [← Except.ok.inj hd]
    intro col hcol
    obtain ⟨col₀, hmem, heq⟩ := List.mem_map.mp hcol
    rw [← heq]
    exact henc col₀ hmem

/-- Alignment of an all-empty frame yields an all-empty frame (kept
columns are empty, fill columns replicate over zero rows). -/
theorem allNil_reindex (d g : Frame) (features : List String)
    (hall : ∀ col ∈ d, col.vals = []) (h : reindex d features = .ok g) :
    ∀ col ∈ g, col.vals = [] := by
  unfold reindex at h
  split at h
  case isFalse => cases h
  case isTrue hnd =>
    rw [← Except.ok.inj h]
    intro col hcol
    obtain ⟨c, _, heq⟩ := List.mem_map.mp hcol
    rw [← heq]
    unfold reindexCol
    cases hf : d.find? (fun col => col.name == c) with
    | some col₀ => exact hall col₀ (List.mem_of_find?_eq_some hf)
    | none =>
      show (fillCol c (nRows d)).vals = []
      unfold fillCol
      rw [nRows_eq_zero d hall]
      rfl

/-- An all-empty frame has no row 0 to score. -/
theorem firstRow_none_of_allNil (g : Frame) (hall : ∀ col ∈ g, col.vals = []) :
    firstRow g = none := by
  unfold firstRow
  rw [nRows_eq_zero g hall]
  rfl

/-- Cleaning a single-record frame whose gender is the invalid "XNA"
sentinel silently succeeds with a 0-row frame: the row is filtered out,
and the sparse-column stage drops nothing on zero rows. -/
theorem cleaning_xna_allNil (data : Record)
    (hg : data.lookup "CODE_GENDER" = some (Val.str "XNA")) :
    ∀ f2, run_cleaning_pipeline (frameOfRecord data) = .ok f2 →
      ∀ col ∈ f2, col.vals = [] := by
  intro f2 hcl
  cases h1 : clean_employment_anomaly (frameOfRecord data) with
  | error e => simp only [run_cleaning_pipeline, h1, error_bind] at hcl; cases hcl
  | ok f1 =>
    have hCG : getColVals f1 "CODE_GENDER" = .ok [Val.str "XNA"] := by
      rw [clean_employment_preserves _ f1 _ (by decide) (by decide) h1,
        getColVals_frameOfRecord, hg]
    have hmask : ([Val.str "XNA"].map (fun v => !(v == Val.str "XNA"))) = [false] := by
      simp
    have hfr : ∀ col ∈ filterRows f1 [false], col.vals = [] := by
      intro col hcol
      obtain ⟨col₀, _, heq⟩ := List.mem_map.mp hcol
      rw [← heq]
      show applyMask col₀.vals [false] = []
      exact applyMask_false _
    have hgc : clean_gender_code f1 = .ok (filterRows f1 [false]) := by
      simp only [clean_gender_code, hCG, ok_bind, hmask, pure_eq_ok]
    have hdropeq : drop_high_missing_cols (filterRows f1 [false]) 50
        = filterRows f1 [false] := by
      unfold drop_high_missing_cols
      rw [if_pos (nRows_eq_zero _ hfr)]
    simp only [run_cleaning_pipeline, h1, ok_bind, hgc, pure_eq_ok, hdropeq] at hcl
    rw [← Except.ok.inj hcl]
    exact hfr

/-- Preprocessing a gender-"XNA" request, when it completes, yields an
all-empty aligned frame. -/
theorem preprocess_xna_allNil (features : List String) (data : Record)
    (hg : data.lookup "CODE_GENDER" = some (Val.str "XNA")) (g : Frame)
    (h : preprocess_input features data = .ok g) : ∀ col ∈ g, col.vals = [] := by
  unfold preprocess_input at h
  cases hcl : run_cleaning_pipeline (frameOfRecord data) with
  | error e => rw [hcl, error_bind] at h; cases h
  | ok f2 =>
    rw [hcl, ok_bind] at h
    cases hfe : run_feature_engineering f2 with
    | error e => rw [hfe, error_bind] at h; cases h
    | ok d =>
      rw [hfe, ok_bind] at h
      exact allNil_reindex d g features
        (allNil_run_FE f2 d (cleaning_xna_allNil data hg f2 hcl) hfe) h

/-- C6 counterexample: on the gender-"XNA" request, cleaning does not
reject anything — it silently returns a 0-row frame — and the pipeline
fails much later with an `IndexError` from scoring the empty frame, so
no validation error is ever raised at the cleaning stage. -/
theorem c6_counterexample :
    (run_cleaning_pipeline (frameOfRecord xnaRequest)).map nRows = .ok 0 ∧
    predict zeroModel zeroShap demoFeatures xnaRequest = .error PyErr.indexError := by
  exact ⟨by with_unfolding_all decide, by with_unfolding_all decide⟩

/-- C6 amended: for every request whose gender is the "XNA" sentinel,
the cleaning stage never raises — when it completes it returns a frame
with zero rows (silent pass-through of an empty frame) — and `predict`
never produces a ScoreResult: the failure surfaces only downstream,
as the generic caught-exception payload of the scoring stage. -/
theorem c6_amended_silent_drop (features : List String)
    (modelProb : List Val → ℚ) (shapRow : List Val → List ℚ) (data : Record)
    (hg : data.lookup "CODE_GENDER" = some (Val.str "XNA")) :
    (∀ f2, run_cleaning_pipeline (frameOfRecord data) = .ok f2 → nRows f2 = 0) ∧
    (∀ res, predict modelProb shapRow features data ≠ .ok res) := by
  constructor
  · intro f2 hcl
    exact nRows_eq_zero f2 (cleaning_xna_allNil data hg f2 hcl)
  · intro res hok
    cases hpre : preprocess_input features data with
    | error e => simp only [predict, hpre, error_bind] at hok; cases hok
    | ok g =>
      have hfr := firstRow_none_of_allNil g (preprocess_xna_allNil features data hg g hpre)
      simp only [predict, hpre, ok_bind, hfr, error_bind] at hok
      cases hok

/-- Witness for C6's amended statement on the concrete "XNA" request. -/
theorem c6_amended_witness :
    (∀ f2, run_cleaning_pipeline (frameOfRecord xnaRequest) = .ok f2 → nRows f2 = 0) ∧
    (∀ res, predict zeroModel zeroShap demoFeatures xnaRequest ≠ .ok res) :=
  c6_amended_silent_drop demoFeatures zeroModel zeroShap xnaRequest
    (by with_unfolding_all decide)

/-- C7 counterexample: on the concrete sentinel-employment request,
serving-time cleaning removes the `DAYS_EMPLOYED` attribute — the
missing-rate rule runs on the single row and drops the column that the
anomaly correction just set to the missing marker. -/
theorem c7_counterexample :
    (run_cleaning_pipeline (frameOfRecord sentinelRequest)).map
      (fun f => f.find? (fun col => col.name == "DAYS_EMPLOYED")) = .ok none := by
  with_unfolding_all decide

/-- C7 amended: serving-time cleaning does recompute missing-rate
statistics on the single row — `run_cleaning_pipeline` applies
`drop_high_missing_cols` per request, so for every sentinel-employment
request (with a valid gender) cleaning succeeds and the resulting frame
no longer contains any `DAYS_EMPLOYED` column: it was 100% missing in
the one-row frame after NaN substitution and got dropped. -/
theorem c7_amended_sparse_drop_at_serving (data : Record) (gv : Val)
    (hde : data.lookup "DAYS_EMPLOYED" = some (Val.num 365243))
    (hg : data.lookup "CODE_GENDER" = some gv) (hgx : gv ≠ Val.str "XNA") :
    ∃ f2, run_cleaning_pipeline (frameOfRecord data) = .ok f2 ∧
      ∀ col ∈ f2, col.name ≠ "DAYS_EMPLOYED" := by
  have h0 : getColVals (frameOfRecord data) "DAYS_EMPLOYED" = .ok [Val.num 365243] := by
    rw [getColVals_frameOfRecord, hde]
  have hm1 : [Val.num 365243].map anomFlag = [Val.num 1] := by simp [anomFlag]
  have hm2 : [Val.num 365243].map sentinelToNan = [Val.nan] := by simp [sentinelToNan]
  have h1 : getColVals (setCol (frameOfRecord data) "DAYS_EMPLOYED_ANOM" false [Val.num 1])
      "DAYS_EMPLOYED" = .ok [Val.num 365243] := by
    rw [getColVals_setCol_ne _ _ _ _ _ (by decide)]
    exact h0
  have hclean : clean_employment_anomaly (frameOfRecord data)
      = .ok (setCol (setCol (frameOfRecord data) "DAYS_EMPLOYED_ANOM" false [Val.num 1])
          "DAYS_EMPLOYED" false [Val.nan]) := by
    simp only [clean_employment_anomaly, h0, ok_bind, hm1, hm2, h1, pure_eq_ok]
  have h0g : getColVals (frameOfRecord data) "CODE_GENDER" = .ok [gv] := by
    rw [getColVals_frameOfRecord, hg]
  have hF1g : getColVals (setCol (setCol (frameOfRecord data) "DAYS_EMPLOYED_ANOM" false
      [Val.num 1]) "DAYS_EMPLOYED" false [Val.nan]) "CODE_GENDER" = .ok [gv] := by
    rw [getColVals_setCol_ne _ _ _ _ _ (by decide), getColVals_setCol_ne _ _ _ _ _ (by decide)]
    exact h0g
  have hmaskt : ([gv].map (fun v => !(v == Val.str "XNA"))) = [true] := by
    have hb : (gv == Val.str "XNA") = false := beq_eq_false_iff_ne.mpr hgx
    simp [hb]
  have hu1 : ∀ col ∈ setCol (setCol (frameOfRecord data) "DAYS_EMPLOYED_ANOM" false
      [Val.num 1]) "DAYS_EMPLOYED" false [Val.nan], col.vals.length = 1 :=
    setCol_vals_prop (fun vs => vs.length = 1) _ _ _ _
      (setCol_vals_prop (fun vs => vs.length = 1) _ _ _ _
        (frameOfRecord_uniform data) rfl) rfl
  have hfilter : filterRows (setCol (setCol (frameOfRecord data) "DAYS_EMPLOYED_ANOM" false
      [Val.num 1]) "DAYS_EMPLOYED" false [Val.nan]) [true]
      = setCol (setCol (frameOfRecord data) "DAYS_EMPLOYED_ANOM" false
          [Val.num 1]) "DAYS_EMPLOYED" false [Val.nan] :=
    filterRows_true _ hu1
  have hgc : clean_gender_code (setCol (setCol (frameOfRecord data) "DAYS_EMPLOYED_ANOM"
      false [Val.num 1]) "DAYS_EMPLOYED" false [Val.nan])
      = .ok (setCol (setCol (frameOfRecord data) "DAYS_EMPLOYED_ANOM" false
          [Val.num 1]) "DAYS_EMPLOYED" false [Val.nan]) := by
    simp only [clean_gender_code, hF1g, ok_bind, hmaskt, hfilter, pure_eq_ok]
  have hnonempty : setCol (setCol (frameOfRecord data) "DAYS_EMPLOYED_ANOM" false
      [Val.num 1]) "DAYS_EMPLOYED" false [Val.nan] ≠ [] := by
    have hc : hasCol (setCol (setCol (frameOfRecord data) "DAYS_EMPLOYED_ANOM" false
        [Val.num 1]) "DAYS_EMPLOYED" false [Val.nan]) "DAYS_EMPLOYED" = true :=
      hasCol_setCol_self _ _ _ _
    intro hcon
    rw [hcon] at hc
    simp [hasCol] at hc
  have hnr : nRows (setCol (setCol (frameOfRecord data) "DAYS_EMPLOYED_ANOM" false
      [Val.num 1]) "DAYS_EMPLOYED" false [Val.nan]) = 1 :=
    nRows_eq_one _ hnonempty hu1
  refine ⟨drop_high_missing_cols (setCol (setCol (frameOfRecord data) "DAYS_EMPLOYED_ANOM"
    false [Val.num 1]) "DAYS_EMPLOYED" false [Val.nan]) 50, ?_, ?_⟩
  · simp only [run_cleaning_pipeline, hclean, ok_bind, hgc, pure_eq_ok]
  · intro col hcol hname
    unfold drop_high_missing_cols at hcol
    rw [if_neg (by rw [hnr]; exact Nat.one_ne_zero)] at hcol
    obtain ⟨hmem, hpred⟩ := List.mem_filter.mp hcol
    have hvals : col.vals = [Val.nan] := setCol_vals_of_name _ _ _ _ col hmem hname
    rw [hvals, hnr] at hpred
    have hcm : countMissing [Val.nan] = 1 := rfl
    rw [hcm] at hpred
    have hgt : (100 : ℚ) * ((1 : ℕ) : ℚ) / ((1 : ℕ) : ℚ) > 50 := by norm_num
    simp only [Bool.not_eq_eq_eq_not, Bool.not_true, decide_eq_false_iff_not] at hpred
    exact hpred hgt

/-- Witness for C7's amended statement on the concrete sentinel
request. -/
theorem c7_amended_witness :
    ∃ f2, run_cleaning_pipeline (frameOfRecord sentinelRequest) = .ok f2 ∧
      ∀ col ∈ f2, col.name ≠ "DAYS_EMPLOYED" :=
  c7_amended_sparse_drop_at_serving sentinelRequest (Val.str "M")
    (by with_unfolding_all decide) (by with_unfolding_all decide) (by decide)

end CreditRisk
